import Mathlib

/-!
Verification of the aggregation and training-load analytics core of the
notion-fitness-tracker repository (scripts/update_dashboard.py and
scripts/generate_charts_data.py), shallowly embedded in Lean 4.

Modelling conventions:
* Python floats are modelled as exact rationals (ℚ).  `round(x, n)` is
  modelled by `roundTo n x` (round half away from the lower side via
  Mathlib's `round`); no claim below depends on tie-breaking behaviour.
* Python `date` objects are modelled by their proleptic-Gregorian ordinal
  (`date.toordinal()`, an integer; `date(1,1,1)` has ordinal 1).  Comparison
  of dates, `timedelta` arithmetic and `weekday()` coincide with integer
  arithmetic on ordinals.  The accessors `.year`, `.month`, `.day` are
  implemented by the standard civil-from-days algorithm, which computes the
  same year/month/day triple as CPython's `_ord2ymd`; `mkDate y m d` is the
  inverse (`date(y, m, d).toordinal()`, days-from-civil).
* Optional record fields (`None` in Python) are `Option` values.
-/

/-- `round(x, d)`: round a rational to `d` decimal places. -/
def roundTo (d : ℕ) (x : ℚ) : ℚ := ((round (x * 10 ^ d) : ℤ) : ℚ) / 10 ^ d

/-- Python `int(x)` on a float/rational: truncation toward zero. -/
def truncQ (x : ℚ) : ℤ := if 0 ≤ x then ⌊x⌋ else ⌈x⌉

/-- `_safe_avg(values)`: average of a list of numbers rounded to 1 decimal,
`0.0` if the list is empty. -/
def safe_avg (values : List ℚ) : ℚ :=
  if values = [] then 0 else roundTo 1 (values.sum / values.length)

/-! ## The Python `date` type, modelled as its proleptic-Gregorian ordinal

A Python `date` value is represented below by the integer `date.toordinal()`;
date comparison, subtraction and `timedelta` addition are integer operations
on ordinals. -/

/-- `calendar.isleap(y)`. -/
def isLeap (y : ℤ) : Bool := y % 4 == 0 && (y % 100 != 0 || y % 400 == 0)

/-- `calendar.monthrange(y, m)[1]`: number of days of month `m` of year `y`
(for `1 ≤ m ≤ 12`). -/
def mdays (y m : ℤ) : ℤ :=
  if m = 2 then (if isLeap y then 29 else 28)
  else if m = 4 ∨ m = 6 ∨ m = 9 ∨ m = 11 then 30
  else 31

/-- Shifted year of the civil calendar (the year starts in March). -/
def civilYr (y m : ℤ) : ℤ := if m ≤ 2 then y - 1 else y

/-- 400-year era of the shifted year. -/
def civilEra (y m : ℤ) : ℤ := civilYr y m / 400

/-- Year of era of the shifted year. -/
def civilYoe (y m : ℤ) : ℤ := civilYr y m - civilEra y m * 400

/-- March-based month index: March ↦ 0, …, February ↦ 11. -/
def civilMp (m : ℤ) : ℤ := (m + 9) % 12

/-- Day of the March-based year. -/
def civilDoy (m d : ℤ) : ℤ := (153 * civilMp m + 2) / 5 + d - 1

/-- Day of era. -/
def civilDoe (y m d : ℤ) : ℤ :=
  civilYoe y m * 365 + civilYoe y m / 4 - civilYoe y m / 100 + civilDoy m d

/-- `date(y, m, d).toordinal()` (days-from-civil, shifted so that
`mkDate 1 1 1 = 1` as in Python). -/
def mkDate (y m d : ℤ) : ℤ := civilEra y m * 146097 + civilDoe y m d - 305

/-- 400-year era of an ordinal. -/
def pyEra (t : ℤ) : ℤ := (t + 305) / 146097

/-- Day-of-era of an ordinal. -/
def pyDoe (t : ℤ) : ℤ := t + 305 - 146097 * pyEra t

/-- Year-of-era extracted from the day-of-era. -/
def pyYoe (t : ℤ) : ℤ :=
  (pyDoe t - pyDoe t / 1460 + pyDoe t / 36524 - pyDoe t / 146096) / 365

/-- Shifted (March-based) year of an ordinal. -/
def pyY (t : ℤ) : ℤ := pyYoe t + 400 * pyEra t

/-- Day of the March-based year of an ordinal. -/
def pyDoy (t : ℤ) : ℤ :=
  pyDoe t - (365 * pyYoe t + pyYoe t / 4 - pyYoe t / 100)

/-- March-based month index of an ordinal. -/
def pyMp (t : ℤ) : ℤ := (5 * pyDoy t + 2) / 153

/-- `date.fromordinal(t).day`. -/
def dayOf (t : ℤ) : ℤ := pyDoy t - (153 * pyMp t + 2) / 5 + 1

/-- `date.fromordinal(t).month`. -/
def monthOf (t : ℤ) : ℤ := pyMp t + (if pyMp t < 10 then 3 else -9)

/-- `date.fromordinal(t).year`. -/
def yearOf (t : ℤ) : ℤ := pyY t + (if monthOf t ≤ 2 then 1 else 0)

/-- `date.weekday()`: Monday = 0 … Sunday = 6. -/
def pyWeekday (t : ℤ) : ℤ := (t - 1) % 7

/-! ## Calendar correctness lemmas -/

theorem pyDoe_bounds (t : ℤ) : 0 ≤ pyDoe t ∧ pyDoe t ≤ 146096 := by
  simp only [pyDoe, pyEra]; omega

theorem century_yoe_bounds (t s : ℤ) (ht0 : 0 ≤ t) (ht : t ≤ 72)
    (hs0 : 0 ≤ s) (hs : s ≤ 36523) :
    365 * ((s - (t + s) / 1460) / 365) + ((s - (t + s) / 1460) / 365) / 4 ≤ s ∧
    s - (365 * ((s - (t + s) / 1460) / 365) + ((s - (t + s) / 1460) / 365) / 4) ≤ 365 ∧
    0 ≤ (s - (t + s) / 1460) / 365 ∧
    (s - (t + s) / 1460) / 365 ≤ 99 := by
  omega

theorem century_yoe_leap (t s : ℤ) (ht0 : 0 ≤ t) (ht : t ≤ 72)
    (hs0 : 0 ≤ s) (hs : s ≤ 36523)
    (c y : ℤ) (hc : c = (t + s) / 1460) (hy : y = (s - c) / 365)
    (hyhi : y ≤ 99)
    (hdoy : s - (365 * y + y / 4) = 365) :
    (y + 1) % 4 = 0 ∧ y ≠ 99 := by
  have hy99 : y ≠ 99 := by omega
  rcases (show y % 4 = 3 ∨ y % 4 ≤ 2 by omega) with hr | hr
  · exact ⟨by omega, hy99⟩
  · exfalso
    have h1 : s = 365 * y + y / 4 + 365 := by omega
    have hyb : y ≤ 98 := by omega
    have h2 : c = y / 4 := by omega
    omega

theorem pyCivil_core (t : ℤ) :
    0 ≤ pyYoe t ∧ pyYoe t ≤ 399 ∧
    0 ≤ pyDoy t ∧ pyDoy t ≤ 365 ∧
    (pyDoy t = 365 →
      (pyYoe t + 1) % 4 = 0 ∧ ((pyYoe t + 1) % 100 ≠ 0 ∨ pyYoe t = 399)) := by
  obtain ⟨hd0, hd1⟩ := pyDoe_bounds t
  rcases eq_or_lt_of_le hd1 with hend | hlt
  · have hyoe : pyYoe t = 399 := by simp only [pyYoe]; omega
    have hdoy : pyDoy t = 365 := by simp only [pyDoy, hyoe]; omega
    refine ⟨by omega, by omega, by omega, by omega, fun _ => ⟨by omega, Or.inr hyoe⟩⟩
  · set doe := pyDoe t with hdoe
    set k := doe / 36524 with hk
    set s := doe - 36524 * k with hs
    have hkb : 0 ≤ k ∧ k ≤ 3 := by omega
    have hsb : 0 ≤ s ∧ s ≤ 36523 := by omega
    set c₁ := (24 * k + s) / 1460 with hc₁
    have hcdec : doe / 1460 = 25 * k + c₁ := by omega
    have hedec : doe / 146096 = 0 := by omega
    have hddec : doe / 36524 = k := hk.symm
    set y₁ := (s - c₁) / 365 with hy₁
    have hc₁s : 0 ≤ c₁ ∧ c₁ ≤ s := by omega
    have hyoe : pyYoe t = 100 * k + y₁ := by
      simp only [pyYoe, ← hdoe, hcdec, hedec, hddec]; omega
    obtain ⟨hb1, hb2, hb3, hb4⟩ :=
      century_yoe_bounds (24 * k) s (by omega) (by omega) hsb.1 hsb.2
    rw [show (24 * k + s) = (24 * k + s) from rfl] at hb1
    have hq4 : (100 * k + y₁) / 4 = 25 * k + y₁ / 4 := by omega
    have hq100 : (100 * k + y₁) / 100 = k := by omega
    have hdoy : pyDoy t = s - (365 * y₁ + y₁ / 4) := by
      simp only [pyDoy, hyoe, hq4, hq100]; omega
    refine ⟨by omega, by omega, by omega, by omega, fun h365 => ?_⟩
    have hleap := century_yoe_leap (24 * k) s (by omega) (by omega) hsb.1 hsb.2
      c₁ y₁ rfl rfl hb4 (by omega)
    constructor
    · omega
    · left; omega

theorem isLeap_iff (y : ℤ) :
    isLeap y = true ↔ (y % 4 = 0 ∧ (y % 100 ≠ 0 ∨ y % 400 = 0)) := by
  simp [isLeap]

theorem doy_mp_day (doy mp d m : ℤ) (h0 : 0 ≤ doy) (h1 : doy ≤ 365)
    (hmp : mp = (5 * doy + 2) / 153)
    (hd : d = doy - (153 * mp + 2) / 5 + 1)
    (hm : m = mp + (if mp < 10 then 3 else -9)) :
    1 ≤ d ∧ 0 ≤ mp ∧ mp ≤ 11 ∧
    (m = 2 ↔ mp = 11) ∧
    ((m = 4 ∨ m = 6 ∨ m = 9 ∨ m = 11) → d ≤ 30) ∧
    d ≤ 31 ∧
    (mp = 11 → d = doy - 336) ∧
    1 ≤ m ∧ m ≤ 12 := by
  rcases lt_or_ge mp 10 with h | h
  · rw [if_pos h] at hm; omega
  · rw [if_neg (by omega)] at hm; omega

theorem pyMp_spec (t : ℤ) : pyMp t = (5 * pyDoy t + 2) / 153 := rfl

theorem dayOf_spec (t : ℤ) : dayOf t = pyDoy t - (153 * pyMp t + 2) / 5 + 1 := rfl

theorem monthOf_spec (t : ℤ) :
    monthOf t = pyMp t + (if pyMp t < 10 then 3 else -9) := rfl

theorem monthOf_bounds (t : ℤ) : 1 ≤ monthOf t ∧ monthOf t ≤ 12 := by
  obtain ⟨_, _, hdoy0, hdoy1, _⟩ := pyCivil_core t
  obtain ⟨_, _, _, _, _, _, _, hm1, hm2⟩ :=
    doy_mp_day (pyDoy t) (pyMp t) (dayOf t) (monthOf t) hdoy0 hdoy1
      (pyMp_spec t) (dayOf_spec t) (monthOf_spec t)
  exact ⟨hm1, hm2⟩

theorem mdays_of_ne_two (y m : ℤ) (h : m ≠ 2) :
    mdays y m = if m = 4 ∨ m = 6 ∨ m = 9 ∨ m = 11 then 30 else 31 := by
  simp only [mdays, if_neg h]

theorem mdays_two (y : ℤ) : mdays y 2 = if isLeap y then 29 else 28 := by
  simp [mdays]

theorem mdays_bounds (y m : ℤ) : 28 ≤ mdays y m ∧ mdays y m ≤ 31 := by
  by_cases h : m = 2
  · subst h; rw [mdays_two]; split <;> omega
  · rw [mdays_of_ne_two y m h]; split <;> omega

theorem yearOf_feb (t : ℤ) (h2 : monthOf t ≤ 2) : yearOf t = pyY t + 1 := by
  simp only [yearOf, if_pos h2]

theorem dayOf_le_mdays (t : ℤ) :
    1 ≤ dayOf t ∧ dayOf t ≤ mdays (yearOf t) (monthOf t) := by
  obtain ⟨hy0, hy1, hdoy0, hdoy1, hleap⟩ := pyCivil_core t
  obtain ⟨hd1, hmp0, hmp11, hfeb, h30, h31, hfebd, hm1, hm2⟩ :=
    doy_mp_day (pyDoy t) (pyMp t) (dayOf t) (monthOf t) hdoy0 hdoy1
      (pyMp_spec t) (dayOf_spec t) (monthOf_spec t)
  refine ⟨hd1, ?_⟩
  by_cases h2 : monthOf t = 2
  · have hmp : pyMp t = 11 := hfeb.mp h2
    have hd : dayOf t = pyDoy t - 336 := hfebd hmp
    rw [h2, mdays_two]
    rcases eq_or_lt_of_le hdoy1 with h365 | h364
    · obtain ⟨hl4, hl100⟩ := hleap h365
      have hY : yearOf t = pyYoe t + 400 * pyEra t + 1 := by
        rw [yearOf_feb t (by omega)]; simp only [pyY]
      have : isLeap (yearOf t) = true := by
        rw [isLeap_iff, hY]
        constructor
        · omega
        · rcases hl100 with h | h
          · left; omega
          · right; omega
      rw [if_pos this]; omega
    · have : (28:ℤ) ≤ if isLeap (yearOf t) = true then 29 else 28 := by split <;> omega
      omega
  · rw [mdays_of_ne_two _ _ h2]
    split
    · exact h30 (by assumption)
    · exact h31

theorem mkDate_of_pyYMD (t : ℤ) :
    mkDate (yearOf t) (monthOf t) (dayOf t) = t := by
  obtain ⟨hy0, hy1, hdoy0, hdoy1, _⟩ := pyCivil_core t
  have hmpb : 0 ≤ pyMp t ∧ pyMp t ≤ 11 := by
    rw [pyMp_spec]; omega
  have hcivilYr : civilYr (yearOf t) (monthOf t) = pyY t := by
    rcases lt_or_ge (pyMp t) 10 with hlt | hge
    · have hm : monthOf t = pyMp t + 3 := by rw [monthOf_spec, if_pos hlt]
      have hm3 : ¬ monthOf t ≤ 2 := by omega
      simp only [civilYr, yearOf, if_neg hm3, add_zero]
    · have hm : monthOf t = pyMp t - 9 := by
        rw [monthOf_spec, if_neg (by omega)]; ring
      have hm3 : monthOf t ≤ 2 := by omega
      simp only [civilYr, yearOf, if_pos hm3]; ring
  have hEra : civilEra (yearOf t) (monthOf t) = pyEra t := by
    simp only [civilEra, hcivilYr, pyY]; omega
  have hYoe : civilYoe (yearOf t) (monthOf t) = pyYoe t := by
    simp only [civilYoe, hcivilYr, hEra, pyY]; ring
  have hMp : civilMp (monthOf t) = pyMp t := by
    simp only [civilMp]
    rcases lt_or_ge (pyMp t) 10 with hlt | hge
    · rw [monthOf_spec, if_pos hlt]; omega
    · rw [monthOf_spec, if_neg (by omega)]; omega
  have hDoy : civilDoy (monthOf t) (dayOf t) = pyDoy t := by
    simp only [civilDoy, hMp, dayOf_spec]; ring
  rw [mkDate, civilDoe, hEra, hYoe, hDoy]
  simp only [pyDoy, pyDoe]
  omega

theorem mkDate_day (y m d : ℤ) : mkDate y m d = mkDate y m 1 + d - 1 := by
  simp only [mkDate, civilDoe, civilDoy]; ring

theorem yoe_div4 (z : ℤ) : (z - z / 400 * 400) / 4 = z / 4 - 100 * (z / 400) := by omega

theorem yoe_div100 (z : ℤ) : (z - z / 400 * 400) / 100 = z / 100 - 4 * (z / 400) := by omega

/-- Days before the March-based year `z`, counted globally (no era split). -/
def gstart (z : ℤ) : ℤ := 365 * z + z / 4 - z / 100 + z / 400

theorem mkDate_closed (y m d : ℤ) :
    mkDate y m d = gstart (civilYr y m) + civilDoy m d - 305 := by
  have e1 := yoe_div4 (civilYr y m)
  have e2 := yoe_div100 (civilYr y m)
  simp only [mkDate, civilDoe, civilEra, civilYoe, gstart]
  omega

theorem gstart_step (z : ℤ) :
    gstart (z + 1) - gstart z =
      if (z + 1) % 4 = 0 ∧ ((z + 1) % 100 ≠ 0 ∨ (z + 1) % 400 = 0) then 366 else 365 := by
  simp only [gstart]; split_ifs with h <;> omega

theorem gstart_step_eq (y : ℤ) :
    gstart y - gstart (y - 1) =
      if y % 4 = 0 ∧ (y % 100 ≠ 0 ∨ y % 400 = 0) then 366 else 365 := by
  have h := gstart_step (y - 1)
  rw [show y - 1 + 1 = y from by ring] at h
  exact h

set_option maxHeartbeats 1600000 in
theorem mkDate_next (y m : ℤ) (h1 : 1 ≤ m) (h2 : m ≤ 12) :
    mkDate y m (mdays y m) + 1 =
      if m = 12 then mkDate (y + 1) 1 1 else mkDate y (m + 1) 1 := by
  have hstep := gstart_step_eq y
  have hn : y + 1 - 1 = y := by ring
  by_cases hL : isLeap y = true
  · have hfacts := (isLeap_iff y).mp hL
    rw [if_pos hfacts] at hstep
    interval_cases m <;>
      (simp only [mdays, mkDate_closed, civilDoy, civilMp, civilYr, hL, hn]; split_ifs <;>
        first
        | omega
        | (simp_all <;> omega))
  · have hfacts : ¬ (y % 4 = 0 ∧ (y % 100 ≠ 0 ∨ y % 400 = 0)) :=
      fun hc => hL ((isLeap_iff y).mpr hc)
    rw [if_neg hfacts] at hstep
    interval_cases m <;>
      (simp only [mdays, mkDate_closed, civilDoy, civilMp, civilYr, hL, hn]; split_ifs <;>
        first
        | omega
        | (simp_all <;> omega))

set_option maxHeartbeats 1600000 in
theorem monthStart_mono (y a b : ℤ) (h1 : 1 ≤ a) (hab : a ≤ b) (h2 : b ≤ 12) :
    mkDate y a 1 ≤ mkDate y b 1 := by
  have hstep2 : 365 ≤ gstart y - gstart (y - 1) ∧ gstart y - gstart (y - 1) ≤ 366 := by
    have h := gstart_step_eq y
    split_ifs at h <;> omega
  rw [mkDate_closed, mkDate_closed]
  simp only [civilDoy, civilMp, civilYr]
  split_ifs <;> omega

theorem mkDate_start_le_end (y m : ℤ) : mkDate y m 1 ≤ mkDate y m (mdays y m) := by
  have h := mkDate_day y m (mdays y m)
  have := mdays_bounds y m
  omega

theorem monthEnd_mono (y a b : ℤ) (h1 : 1 ≤ a) (hab : a ≤ b) (h2 : b ≤ 12) :
    mkDate y a (mdays y a) ≤ mkDate y b (mdays y b) := by
  rcases eq_or_lt_of_le hab with rfl | hlt
  · exact le_refl _
  · have hnext := mkDate_next y a (by omega) (by omega)
    rw [if_neg (by omega)] at hnext
    have h2' := monthStart_mono y (a + 1) b (by omega) (by omega) h2
    have h3 := mkDate_start_le_end y b
    omega

theorem mdays_twelve (y : ℤ) : mdays y 12 = 31 := by norm_num [mdays]

theorem mkDate_dec31 (y : ℤ) : mkDate y 12 31 + 1 = mkDate (y + 1) 1 1 := by
  have h := mkDate_next y 12 (by norm_num) le_rfl
  rw [if_pos rfl, mdays_twelve] at h
  exact h

/-! ## Period boundaries (`get_period_boundaries`) -/

/-- One `(start, end, label)` tuple produced by `get_period_boundaries`. -/
structure Period where
  start : ℤ := 0
  stop : ℤ := 0
  label : String := ""
deriving Repr, DecidableEq, Inhabited

/-- `%b`: abbreviated month name (for `1 ≤ m ≤ 12`). -/
def monthAbbrev (m : ℤ) : String :=
  if m = 1 then "Jan" else if m = 2 then "Feb" else if m = 3 then "Mar"
  else if m = 4 then "Apr" else if m = 5 then "May" else if m = 6 then "Jun"
  else if m = 7 then "Jul" else if m = 8 then "Aug" else if m = 9 then "Sep"
  else if m = 10 then "Oct" else if m = 11 then "Nov" else "Dec"

/-- `%d`-style zero-padded two-digit number. -/
def pad2 (n : ℤ) : String :=
  if 0 ≤ n ∧ n < 10 then "0" ++ toString n else toString n

/-- `t.strftime("%b %d")`. -/
def strftimeBD (t : ℤ) : String := monthAbbrev (monthOf t) ++ " " ++ pad2 (dayOf t)

/-- Week label: `f"{monday.strftime('%b %d')} – {sunday.strftime('%b %d')}"`. -/
def weekLabel (monday sunday : ℤ) : String :=
  strftimeBD monday ++ " – " ++ strftimeBD sunday

/-- Month label: `first.strftime("%b %Y")`. -/
def monthLabel (m y : ℤ) : String := monthAbbrev m ++ " " ++ toString y

/-- The `"week"` branch of `get_period_boundaries`:
`monday = current_monday - timedelta(weeks=i)`, `sunday = monday + 6 days`. -/
def weekPeriods (current_monday : ℤ) (count : ℕ) : List Period :=
  (List.range count).map (fun (i : ℕ) =>
    { start := current_monday - 7 * (i : ℤ),
      stop := current_monday - 7 * (i : ℤ) + 6,
      label := weekLabel (current_monday - 7 * (i : ℤ)) (current_monday - 7 * (i : ℤ) + 6) })

/-- The `"month"` branch of `get_period_boundaries` (the loop over `count`,
walking `(y, m)` backwards with year wrap-around). -/
def monthPeriods (y m : ℤ) : ℕ → List Period
  | 0 => []
  | n + 1 =>
    { start := mkDate y m 1, stop := mkDate y m (mdays y m), label := monthLabel m y } ::
      (if m - 1 < 1 then monthPeriods (y - 1) 12 n else monthPeriods y (m - 1) n)

/-- The `"quarter"` branch of `get_period_boundaries` (first month
`(q-1)*3+1`, last month `first+2`, walking `(y, q)` backwards with wrap). -/
def quarterPeriods (y q : ℤ) : ℕ → List Period
  | 0 => []
  | n + 1 =>
    { start := mkDate y ((q - 1) * 3 + 1) 1,
      stop := mkDate y ((q - 1) * 3 + 1 + 2) (mdays y ((q - 1) * 3 + 1 + 2)),
      label := "Q" ++ toString q ++ " " ++ toString y } ::
      (if q - 1 < 1 then quarterPeriods (y - 1) 4 n else quarterPeriods y (q - 1) n)

/-- The `"year"` branch of `get_period_boundaries`. -/
def yearPeriods (y : ℤ) : ℕ → List Period
  | 0 => []
  | n + 1 =>
    { start := mkDate y 1 1, stop := mkDate y 12 31, label := toString y } ::
      yearPeriods (y - 1) n

/-- `get_period_boundaries(today, period_type, count)`. -/
def get_period_boundaries (today : ℤ) (period_type : String) (count : ℕ) :
    List Period :=
  if period_type = "week" then
    weekPeriods (today - pyWeekday today) count
  else if period_type = "month" then
    monthPeriods (yearOf today) (monthOf today) count
  else if period_type = "quarter" then
    quarterPeriods (yearOf today) ((monthOf today - 1) / 3 + 1) count
  else if period_type = "year" then
    yearPeriods (yearOf today) count
  else []

/-- `get_week_boundaries(today)`. -/
def get_week_boundaries (today : ℤ) : List Period :=
  get_period_boundaries today "week" 4

/-! ### Properties of the period generators -/

theorem monthPeriods_length : ∀ (n : ℕ) (y m : ℤ), (monthPeriods y m n).length = n := by
  intro n
  induction n with
  | zero => intro y m; rfl
  | succ n ih =>
    intro y m
    simp only [monthPeriods, List.length_cons]
    split_ifs <;> rw [ih]

theorem quarterPeriods_length : ∀ (n : ℕ) (y q : ℤ), (quarterPeriods y q n).length = n := by
  intro n
  induction n with
  | zero => intro y q; rfl
  | succ n ih =>
    intro y q
    simp only [quarterPeriods, List.length_cons]
    split_ifs <;> rw [ih]

theorem yearPeriods_length : ∀ (n : ℕ) (y : ℤ), (yearPeriods y n).length = n := by
  intro n
  induction n with
  | zero => intro y; rfl
  | succ n ih => intro y; simp only [yearPeriods, List.length_cons, ih]

theorem monthPeriods_startEnd : ∀ (n : ℕ) (y m : ℤ), 1 ≤ m → m ≤ 12 →
    ∀ p ∈ monthPeriods y m n, p.start ≤ p.stop ∧ p.stop ≤ mkDate y m (mdays y m) := by
  intro n
  induction n with
  | zero => intro y m _ _ p hp; simp [monthPeriods] at hp
  | succ n ih =>
    intro y m h1 h2 p hp
    rcases List.mem_cons.mp hp with rfl | htail
    · exact ⟨mkDate_start_le_end y m, le_refl _⟩
    · by_cases hm : m - 1 < 1
      · rw [if_pos hm] at htail
        obtain ⟨hse, hbd⟩ := ih (y - 1) 12 (by norm_num) (by norm_num) p htail
        have hone : m = 1 := by omega
        subst hone
        have hdec := mkDate_dec31 (y - 1)
        rw [mdays_twelve] at hbd
        rw [show y - 1 + 1 = y from by ring] at hdec
        have hle := mkDate_start_le_end y 1
        exact ⟨hse, by omega⟩
      · rw [if_neg hm] at htail
        obtain ⟨hse, hbd⟩ := ih y (m - 1) (by omega) (by omega) p htail
        have := monthEnd_mono y (m - 1) m (by omega) (by omega) h2
        exact ⟨hse, by omega⟩

theorem monthPeriods_pairwise : ∀ (n : ℕ) (y m : ℤ), 1 ≤ m → m ≤ 12 →
    (monthPeriods y m n).Pairwise (fun a b => b.stop < a.start) := by
  intro n
  induction n with
  | zero => intro y m _ _; exact List.Pairwise.nil
  | succ n ih =>
    intro y m h1 h2
    refine List.Pairwise.cons ?_ ?_
    · intro b hb
      show b.stop < mkDate y m 1
      by_cases hm : m - 1 < 1
      · rw [if_pos hm] at hb
        obtain ⟨_, hbd⟩ := monthPeriods_startEnd n (y - 1) 12 (by norm_num) (by norm_num) b hb
        have hone : m = 1 := by omega
        subst hone
        have hdec := mkDate_dec31 (y - 1)
        rw [mdays_twelve] at hbd
        rw [show y - 1 + 1 = y from by ring] at hdec
        omega
      · rw [if_neg hm] at hb
        obtain ⟨_, hbd⟩ := monthPeriods_startEnd n y (m - 1) (by omega) (by omega) b hb
        have hnext := mkDate_next y (m - 1) (by omega) (by omega)
        rw [if_neg (by omega)] at hnext
        rw [show m - 1 + 1 = m from by ring] at hnext
        omega
    · by_cases hm : m - 1 < 1
      · rw [if_pos hm]; exact ih (y - 1) 12 (by norm_num) (by norm_num)
      · rw [if_neg hm]; exact ih y (m - 1) (by omega) (by omega)

theorem quarterStep (y q : ℤ) (h2 : 2 ≤ q) (h4 : q ≤ 4) :
    mkDate y ((q - 1 - 1) * 3 + 1 + 2) (mdays y ((q - 1 - 1) * 3 + 1 + 2)) + 1 =
      mkDate y ((q - 1) * 3 + 1) 1 := by
  rw [show (q - 1 - 1) * 3 + 1 + 2 = (q - 1) * 3 from by ring]
  have hnext := mkDate_next y ((q - 1) * 3) (by omega) (by omega)
  rw [if_neg (by omega)] at hnext
  rw [show (q - 1) * 3 + 1 = (q - 1) * 3 + 1 from rfl]
  exact hnext

theorem quarter_start_le_end (y q : ℤ) (h1 : 1 ≤ q) (h4 : q ≤ 4) :
    mkDate y ((q - 1) * 3 + 1) 1 ≤
      mkDate y ((q - 1) * 3 + 1 + 2) (mdays y ((q - 1) * 3 + 1 + 2)) := by
  have ha := monthStart_mono y ((q - 1) * 3 + 1) ((q - 1) * 3 + 1 + 2) (by omega) (by omega)
    (by omega)
  have hb := mkDate_start_le_end y ((q - 1) * 3 + 1 + 2)
  omega

theorem quarterPeriods_startEnd : ∀ (n : ℕ) (y q : ℤ), 1 ≤ q → q ≤ 4 →
    ∀ p ∈ quarterPeriods y q n, p.start ≤ p.stop ∧
      p.stop ≤ mkDate y ((q - 1) * 3 + 1 + 2) (mdays y ((q - 1) * 3 + 1 + 2)) := by
  intro n
  induction n with
  | zero => intro y q _ _ p hp; simp [quarterPeriods] at hp
  | succ n ih =>
    intro y q h1 h4 p hp
    rcases List.mem_cons.mp hp with rfl | htail
    · exact ⟨quarter_start_le_end y q h1 h4, le_refl _⟩
    · by_cases hq : q - 1 < 1
      · rw [if_pos hq] at htail
        obtain ⟨hse, hbd⟩ := ih (y - 1) 4 (by norm_num) (by norm_num) p htail
        have hone : q = 1 := by omega
        subst hone
        rw [show ((4:ℤ) - 1) * 3 + 1 + 2 = 12 from by norm_num, mdays_twelve] at hbd
        have hdec := mkDate_dec31 (y - 1)
        rw [show y - 1 + 1 = y from by ring] at hdec
        have hst := monthStart_mono y 1 3 (by norm_num) (by norm_num) (by norm_num)
        have hen := mkDate_start_le_end y 3
        refine ⟨hse, ?_⟩
        rw [show ((1:ℤ) - 1) * 3 + 1 + 2 = 3 from by norm_num]
        omega
      · rw [if_neg hq] at htail
        obtain ⟨hse, hbd⟩ := ih y (q - 1) (by omega) (by omega) p htail
        have hstep := quarterStep y q (by omega) h4
        have hs2e := quarter_start_le_end y q (by omega) h4
        exact ⟨hse, by omega⟩

theorem quarterPeriods_pairwise : ∀ (n : ℕ) (y q : ℤ), 1 ≤ q → q ≤ 4 →
    (quarterPeriods y q n).Pairwise (fun a b => b.stop < a.start) := by
  intro n
  induction n with
  | zero => intro y q _ _; exact List.Pairwise.nil
  | succ n ih =>
    intro y q h1 h4
    refine List.Pairwise.cons ?_ ?_
    · intro b hb
      show b.stop < mkDate y ((q - 1) * 3 + 1) 1
      by_cases hq : q - 1 < 1
      · rw [if_pos hq] at hb
        obtain ⟨_, hbd⟩ := quarterPeriods_startEnd n (y - 1) 4 (by norm_num) (by norm_num) b hb
        have hone : q = 1 := by omega
        subst hone
        rw [show ((4:ℤ) - 1) * 3 + 1 + 2 = 12 from by norm_num, mdays_twelve] at hbd
        have hdec := mkDate_dec31 (y - 1)
        rw [show y - 1 + 1 = y from by ring] at hdec
        rw [show ((1:ℤ) - 1) * 3 + 1 = 1 from by norm_num]
        omega
      · rw [if_neg hq] at hb
        obtain ⟨_, hbd⟩ := quarterPeriods_startEnd n y (q - 1) (by omega) (by omega) b hb
        have hstep := quarterStep y q (by omega) h4
        omega
    · by_cases hq : q - 1 < 1
      · rw [if_pos hq]; exact ih (y - 1) 4 (by norm_num) (by norm_num)
      · rw [if_neg hq]; exact ih y (q - 1) (by omega) (by omega)

theorem year_start_le_end (y : ℤ) : mkDate y 1 1 ≤ mkDate y 12 31 := by
  have h1 := monthStart_mono y 1 12 (by norm_num) (by norm_num) (by norm_num)
  have h2 := mkDate_day y 12 31
  have h3 := mkDate_day y 12 1
  omega

theorem yearPeriods_startEnd : ∀ (n : ℕ) (y : ℤ),
    ∀ p ∈ yearPeriods y n, p.start ≤ p.stop ∧ p.stop ≤ mkDate y 12 31 := by
  intro n
  induction n with
  | zero => intro y p hp; simp [yearPeriods] at hp
  | succ n ih =>
    intro y p hp
    rcases List.mem_cons.mp hp with rfl | htail
    · exact ⟨year_start_le_end y, le_refl _⟩
    · obtain ⟨hse, hbd⟩ := ih (y - 1) p htail
      have hdec := mkDate_dec31 (y - 1)
      rw [show y - 1 + 1 = y from by ring] at hdec
      have := year_start_le_end y
      exact ⟨hse, by omega⟩

theorem yearPeriods_pairwise : ∀ (n : ℕ) (y : ℤ),
    (yearPeriods y n).Pairwise (fun a b => b.stop < a.start) := by
  intro n
  induction n with
  | zero => intro y; exact List.Pairwise.nil
  | succ n ih =>
    intro y
    refine List.Pairwise.cons ?_ (ih (y - 1))
    intro b hb
    show b.stop < mkDate y 1 1
    obtain ⟨_, hbd⟩ := yearPeriods_startEnd n (y - 1) b hb
    have hdec := mkDate_dec31 (y - 1)
    rw [show y - 1 + 1 = y from by ring] at hdec
    omega

theorem weekPeriods_length (cm : ℤ) (count : ℕ) :
    (weekPeriods cm count).length = count := by
  rw [weekPeriods, List.length_map, List.length_range]

theorem weekPeriods_getElem (cm : ℤ) (count : ℕ) (i : ℕ) (hi : i < count) :
    (weekPeriods cm count).getD i default =
      { start := cm - 7 * (i : ℤ), stop := cm - 7 * (i : ℤ) + 6,
        label := weekLabel (cm - 7 * (i : ℤ)) (cm - 7 * (i : ℤ) + 6) } := by
  have hlen : (weekPeriods cm count).length = count := weekPeriods_length cm count
  rw [List.getD_eq_getElem _ default (by omega)]
  simp only [weekPeriods, List.getElem_map, List.getElem_range]

theorem weekPeriods_startEnd (cm : ℤ) (count : ℕ) :
    ∀ p ∈ weekPeriods cm count, p.start ≤ p.stop := by
  intro p hp
  simp only [weekPeriods, List.mem_map, List.mem_range] at hp
  obtain ⟨i, _, rfl⟩ := hp
  show cm - 7 * (i : ℤ) ≤ cm - 7 * (i : ℤ) + 6
  omega

theorem weekPeriods_pairwise (cm : ℤ) (count : ℕ) :
    (weekPeriods cm count).Pairwise (fun a b => b.stop < a.start) := by
  rw [weekPeriods, List.pairwise_map]
  refine List.Pairwise.imp ?_ (List.pairwise_lt_range count)
  intro i j hij
  show cm - 7 * (j : ℤ) + 6 < cm - 7 * (i : ℤ)
  have : (i : ℤ) < (j : ℤ) := by exact_mod_cast hij
  omega

theorem pyWeekday_bounds (t : ℤ) : 0 ≤ pyWeekday t ∧ pyWeekday t ≤ 6 := by
  simp only [pyWeekday]; omega

theorem periods_index_facts (ps : List Period)
    (hpw : ps.Pairwise (fun a b => b.stop < a.start))
    (hse : ∀ p ∈ ps, p.start ≤ p.stop) :
    ∀ i j : ℕ, i < j → j < ps.length →
      (ps.getD j default).stop < (ps.getD i default).start ∧
      (ps.getD j default).start < (ps.getD i default).start := by
  intro i j hij hj
  have hi : i < ps.length := lt_trans hij hj
  rw [List.getD_eq_getElem ps default hj, List.getD_eq_getElem ps default hi]
  have hR := List.pairwise_iff_getElem.mp hpw i j hi hj hij
  have hsej := hse ps[j] (List.getElem_mem hj)
  omega

/-- The conjunction of boundary properties claimed for one period list:
correct length, `start ≤ end` everywhere, strictly descending starts,
pairwise disjointness, and the reference date inside the first period. -/
def periodsSpec (ps : List Period) (t : ℤ) (count : ℕ) : Prop :=
  ps.length = count ∧
  (∀ p ∈ ps, p.start ≤ p.stop) ∧
  (∀ i j : ℕ, i < j → j < count →
    (ps.getD j default).start < (ps.getD i default).start ∧
    (ps.getD j default).stop < (ps.getD i default).start) ∧
  ((ps.getD 0 default).start ≤ t ∧ t ≤ (ps.getD 0 default).stop)

theorem weekPeriods_spec (t : ℤ) (count : ℕ) (hN : 1 ≤ count) :
    periodsSpec (weekPeriods (t - pyWeekday t) count) t count := by
  have hw := pyWeekday_bounds t
  have hlen := weekPeriods_length (t - pyWeekday t) count
  refine ⟨hlen, weekPeriods_startEnd _ _, ?_, ?_⟩
  · intro i j hij hj
    have h := periods_index_facts (weekPeriods (t - pyWeekday t) count)
      (weekPeriods_pairwise _ _) (weekPeriods_startEnd _ _) i j hij (by omega)
    exact ⟨h.2, h.1⟩
  · rw [weekPeriods_getElem (t - pyWeekday t) count 0 (by omega)]
    constructor
    · show t - pyWeekday t - 7 * ((0 : ℕ) : ℤ) ≤ t
      push_cast
      omega
    · show t ≤ t - pyWeekday t - 7 * ((0 : ℕ) : ℤ) + 6
      push_cast
      omega

theorem month_head_contains (t : ℤ) :
    mkDate (yearOf t) (monthOf t) 1 ≤ t ∧
    t ≤ mkDate (yearOf t) (monthOf t) (mdays (yearOf t) (monthOf t)) := by
  have hrt := mkDate_of_pyYMD t
  have hday := dayOf_le_mdays t
  have h1 := mkDate_day (yearOf t) (monthOf t) (dayOf t)
  have h2 := mkDate_day (yearOf t) (monthOf t) (mdays (yearOf t) (monthOf t))
  omega

theorem monthPeriods_spec (t : ℤ) (count : ℕ) (hN : 1 ≤ count) :
    periodsSpec (monthPeriods (yearOf t) (monthOf t) count) t count := by
  have hmb := monthOf_bounds t
  have hlen := monthPeriods_length count (yearOf t) (monthOf t)
  obtain ⟨n, rfl⟩ : ∃ n, count = n + 1 := ⟨count - 1, by omega⟩
  refine ⟨hlen, fun p hp => (monthPeriods_startEnd _ _ _ hmb.1 hmb.2 p hp).1, ?_, ?_⟩
  · intro i j hij hj
    have h := periods_index_facts (monthPeriods (yearOf t) (monthOf t) (n + 1))
      (monthPeriods_pairwise _ _ _ hmb.1 hmb.2)
      (fun p hp => (monthPeriods_startEnd _ _ _ hmb.1 hmb.2 p hp).1) i j hij (by omega)
    exact ⟨h.2, h.1⟩
  · have hc := month_head_contains t
    exact ⟨hc.1, hc.2⟩

theorem quarter_head_contains (t : ℤ) :
    mkDate (yearOf t) (((monthOf t - 1) / 3 + 1 - 1) * 3 + 1) 1 ≤ t ∧
    t ≤ mkDate (yearOf t) (((monthOf t - 1) / 3 + 1 - 1) * 3 + 1 + 2)
          (mdays (yearOf t) (((monthOf t - 1) / 3 + 1 - 1) * 3 + 1 + 2)) := by
  have hmb := monthOf_bounds t
  have hrt := mkDate_of_pyYMD t
  have hday := dayOf_le_mdays t
  have h1 := mkDate_day (yearOf t) (monthOf t) (dayOf t)
  have h2 := mkDate_day (yearOf t) (monthOf t) (mdays (yearOf t) (monthOf t))
  have hst := monthStart_mono (yearOf t) (((monthOf t - 1) / 3 + 1 - 1) * 3 + 1) (monthOf t)
    (by omega) (by omega) (by omega)
  have hen := monthEnd_mono (yearOf t) (monthOf t) (((monthOf t - 1) / 3 + 1 - 1) * 3 + 1 + 2)
    (by omega) (by omega) (by omega)
  omega

theorem quarterPeriods_spec (t : ℤ) (count : ℕ) (hN : 1 ≤ count) :
    periodsSpec (quarterPeriods (yearOf t) ((monthOf t - 1) / 3 + 1) count) t count := by
  have hmb := monthOf_bounds t
  have hq1 : 1 ≤ (monthOf t - 1) / 3 + 1 := by omega
  have hq4 : (monthOf t - 1) / 3 + 1 ≤ 4 := by omega
  have hlen := quarterPeriods_length count (yearOf t) ((monthOf t - 1) / 3 + 1)
  obtain ⟨n, rfl⟩ : ∃ n, count = n + 1 := ⟨count - 1, by omega⟩
  refine ⟨hlen, fun p hp => (quarterPeriods_startEnd _ _ _ hq1 hq4 p hp).1, ?_, ?_⟩
  · intro i j hij hj
    have h := periods_index_facts
      (quarterPeriods (yearOf t) ((monthOf t - 1) / 3 + 1) (n + 1))
      (quarterPeriods_pairwise _ _ _ hq1 hq4)
      (fun p hp => (quarterPeriods_startEnd _ _ _ hq1 hq4 p hp).1) i j hij (by omega)
    exact ⟨h.2, h.1⟩
  · have hc := quarter_head_contains t
    exact ⟨hc.1, hc.2⟩

theorem year_head_contains (t : ℤ) :
    mkDate (yearOf t) 1 1 ≤ t ∧ t ≤ mkDate (yearOf t) 12 31 := by
  have hmb := monthOf_bounds t
  have hrt := mkDate_of_pyYMD t
  have hday := dayOf_le_mdays t
  have h1 := mkDate_day (yearOf t) (monthOf t) (dayOf t)
  have h2 := mkDate_day (yearOf t) (monthOf t) (mdays (yearOf t) (monthOf t))
  have hst := monthStart_mono (yearOf t) 1 (monthOf t) (by omega) (by omega) (by omega)
  have hen := monthEnd_mono (yearOf t) (monthOf t) 12 (by omega) (by omega) (by omega)
  have h3 := mkDate_day (yearOf t) 12 31
  have h4 := mkDate_day (yearOf t) 12 (mdays (yearOf t) 12)
  have h5 := mdays_twelve (yearOf t)
  omega

theorem yearPeriods_spec (t : ℤ) (count : ℕ) (hN : 1 ≤ count) :
    periodsSpec (yearPeriods (yearOf t) count) t count := by
  have hlen := yearPeriods_length count (yearOf t)
  obtain ⟨n, rfl⟩ : ∃ n, count = n + 1 := ⟨count - 1, by omega⟩
  refine ⟨hlen, fun p hp => (yearPeriods_startEnd _ _ p hp).1, ?_, ?_⟩
  · intro i j hij hj
    have h := periods_index_facts (yearPeriods (yearOf t) (n + 1))
      (yearPeriods_pairwise _ _)
      (fun p hp => (yearPeriods_startEnd _ _ p hp).1) i j hij (by omega)
    exact ⟨h.2, h.1⟩
  · have hc := year_head_contains t
    exact ⟨hc.1, hc.2⟩

theorem quarter_wrap (t : ℤ) (n : ℕ) (h3 : monthOf t ≤ 3) :
    (quarterPeriods (yearOf t) ((monthOf t - 1) / 3 + 1) (n + 2)).getD 1 default =
      { start := mkDate (yearOf t - 1) 10 1, stop := mkDate (yearOf t - 1) 12 31,
        label := "Q4 " ++ toString (yearOf t - 1) } := by
  have hmb := monthOf_bounds t
  have hq : (monthOf t - 1) / 3 + 1 = 1 := by omega
  rw [hq]
  show (quarterPeriods (yearOf t) 1 (n + 2)).getD 1 default = _
  simp only [quarterPeriods]
  rw [if_pos (by norm_num : (1:ℤ) - 1 < 1)]
  rw [List.getD_cons_succ, List.getD_cons_zero]
  rw [show ((4:ℤ) - 1) * 3 + 1 = 10 from by norm_num]
  rw [show ((10:ℤ) + 2) = 12 from by norm_num]
  rw [mdays_twelve]
  rfl

theorem month_wrap (t : ℤ) (n : ℕ) (h1 : monthOf t = 1) :
    (monthPeriods (yearOf t) (monthOf t) (n + 2)).getD 1 default =
      { start := mkDate (yearOf t - 1) 12 1, stop := mkDate (yearOf t - 1) 12 31,
        label := monthLabel 12 (yearOf t - 1) } := by
  rw [h1]
  simp only [monthPeriods]
  rw [if_pos (by norm_num : (1:ℤ) - 1 < 1)]
  rw [List.getD_cons_succ, List.getD_cons_zero]
  rw [mdays_twelve]

/-- Claim C2: for every reference date, every `period_type` in
`{week, month, quarter, year}` and every count `N ≥ 1`,
`get_period_boundaries` returns exactly `N` periods, each with
`start ≤ end`, ordered strictly most-recent-first (`start[i] > start[i+1]`),
pairwise non-overlapping, with the first period containing the reference
date; walking months and quarters backward across a year boundary wraps
correctly (walking backward from Q1 of year `Y` yields Q4 of year `Y - 1`,
and from January of year `Y` yields December of year `Y - 1`). -/
theorem claim_C2_period_boundaries (today : ℤ) (period_type : String) (count : ℕ)
    (hpt : period_type = "week" ∨ period_type = "month" ∨
      period_type = "quarter" ∨ period_type = "year")
    (hN : 1 ≤ count) :
    periodsSpec (get_period_boundaries today period_type count) today count ∧
    (period_type = "quarter" → monthOf today ≤ 3 → 2 ≤ count →
      (get_period_boundaries today period_type count).getD 1 default =
        { start := mkDate (yearOf today - 1) 10 1,
          stop := mkDate (yearOf today - 1) 12 31,
          label := "Q4 " ++ toString (yearOf today - 1) }) ∧
    (period_type = "month" → monthOf today = 1 → 2 ≤ count →
      (get_period_boundaries today period_type count).getD 1 default =
        { start := mkDate (yearOf today - 1) 12 1,
          stop := mkDate (yearOf today - 1) 12 31,
          label := monthLabel 12 (yearOf today - 1) }) := by
  rcases hpt with rfl | rfl | rfl | rfl
  · refine ⟨?_, fun h => absurd h (by decide), fun h => absurd h (by decide)⟩
    rw [get_period_boundaries, if_pos rfl]
    exact weekPeriods_spec today count hN
  · refine ⟨?_, fun h => absurd h (by decide), fun _ h1 h2 => ?_⟩
    · rw [get_period_boundaries, if_neg (by decide), if_pos rfl]
      exact monthPeriods_spec today count hN
    · obtain ⟨n, rfl⟩ : ∃ n, count = n + 2 := ⟨count - 2, by omega⟩
      rw [get_period_boundaries, if_neg (by decide), if_pos rfl]
      exact month_wrap today n h1
  · refine ⟨?_, fun _ h1 h2 => ?_, fun h => absurd h (by decide)⟩
    · rw [get_period_boundaries, if_neg (by decide), if_neg (by decide), if_pos rfl]
      exact quarterPeriods_spec today count hN
    · obtain ⟨n, rfl⟩ : ∃ n, count = n + 2 := ⟨count - 2, by omega⟩
      rw [get_period_boundaries, if_neg (by decide), if_neg (by decide), if_pos rfl]
      exact quarter_wrap today n h1
  · refine ⟨?_, fun h => absurd h (by decide), fun h => absurd h (by decide)⟩
    rw [get_period_boundaries, if_neg (by decide), if_neg (by decide), if_neg (by decide),
      if_pos rfl]
    exact yearPeriods_spec today count hN

/-- Witness for C2: a concrete instantiation (reference date 2026-10-12,
quarters, three periods). -/
theorem claim_C2_period_boundaries_witness :
    periodsSpec (get_period_boundaries 739901 "quarter" 3) 739901 3 :=
  (claim_C2_period_boundaries 739901 "quarter" 3
    (Or.inr (Or.inr (Or.inl rfl))) (by norm_num)).1

/-- Claim C10: for every reference date and count, a `period_type` other than
week, month, quarter or year makes `get_period_boundaries` return the empty
list (zero periods) without raising. -/
theorem claim_C10_unknown_period_type (today : ℤ) (period_type : String) (count : ℕ)
    (hpt : period_type ∉ ["week", "month", "quarter", "year"]) :
    get_period_boundaries today period_type count = [] := by
  have h1 : period_type ≠ "week" := fun h => hpt (by rw [h]; simp)
  have h2 : period_type ≠ "month" := fun h => hpt (by rw [h]; simp)
  have h3 : period_type ≠ "quarter" := fun h => hpt (by rw [h]; simp)
  have h4 : period_type ≠ "year" := fun h => hpt (by rw [h]; simp)
  rw [get_period_boundaries, if_neg h1, if_neg h2, if_neg h3, if_neg h4]

/-- Witness for C10: the unknown period type `"day"` yields no periods. -/
theorem claim_C10_unknown_period_type_witness :
    get_period_boundaries 739901 "day" 4 = [] :=
  claim_C10_unknown_period_type 739901 "day" 4 (by decide)

/-! ## Data types (dataclasses of update_dashboard.py) -/

/-- `TrainingWeek`: aggregated training metrics for one week. -/
structure TrainingWeek where
  label : String := ""
  sessions : ℕ := 0
  active_days : ℕ := 0
  running_km : ℚ := 0
  longest_run_km : ℚ := 0
  running_count : ℕ := 0
  gym_sessions : ℕ := 0
  gym_volume : ℚ := 0
  gym_volume_per_session : ℚ := 0
  feeling_avg : ℚ := 0
  feeling_pct : ℚ := 0
  tough_sessions : ℕ := 0
  total_duration_min : ℤ := 0
deriving Repr, DecidableEq

/-- `HealthWeek`: aggregated health metrics for one week. -/
structure HealthWeek where
  label : String := ""
  avg_sleep_hours : ℚ := 0
  sleep_quality_mode : String := ""
  avg_resting_hr : ℚ := 0
  avg_steps : ℚ := 0
  avg_body_battery : ℚ := 0
  sick_days : ℕ := 0
  injured_days : ℕ := 0
  rest_days : ℕ := 0
  entries : ℕ := 0
deriving Repr, DecidableEq

/-- `RunningPeriod`: aggregated running performance metrics for one period. -/
structure RunningPeriod where
  label : String := ""
  run_count : ℕ := 0
  total_km : ℚ := 0
  total_duration_min : ℤ := 0
  avg_power_w : ℚ := 0
  total_rss : ℚ := 0
  avg_rss_per_run : ℚ := 0
  avg_critical_power_w : ℚ := 0
  avg_cadence_spm : ℚ := 0
  avg_stride_length_m : ℚ := 0
  avg_ground_contact_ms : ℚ := 0
  avg_vertical_oscillation_cm : ℚ := 0
  avg_leg_spring_stiffness : ℚ := 0
  avg_rpe : ℚ := 0
  avg_hr : ℚ := 0
  power_to_hr_ratio : ℚ := 0
  avg_pace_min_per_km : ℚ := 0
deriving Repr, DecidableEq

/-- `TrainingLoad`: training load and ACWR analysis. -/
structure TrainingLoad where
  label : String := ""
  weekly_rss : ℚ := 0
  acute_load : ℚ := 0
  chronic_load : ℚ := 0
  acwr : ℚ := 0
  load_status : String := ""
deriving Repr, DecidableEq

/-- A flattened Training Sessions record (`extract_training_props` output).
Optional fields are `none` when the Notion property is absent; the date is
stored as an ordinal. -/
structure TrainingRecord where
  name : String := ""
  date : Option ℤ := none
  training_type : Option String := none
  duration_min : Option ℚ := none
  distance_km : Option ℚ := none
  volume_kg : Option ℚ := none
  feeling : Option String := none
  avg_hr : Option ℚ := none
  power_w : Option ℚ := none
  rss : Option ℚ := none
  critical_power_w : Option ℚ := none
  cadence_spm : Option ℚ := none
  stride_length_m : Option ℚ := none
  ground_contact_ms : Option ℚ := none
  vertical_oscillation_cm : Option ℚ := none
  leg_spring_stiffness : Option ℚ := none
  rpe : Option ℚ := none
  temperature_c : Option ℚ := none
  wind_speed : Option ℚ := none
  source : Option String := none
deriving Repr, DecidableEq

/-- `FEELING_MAP`: ordinal feeling scale. -/
def FEELING_MAP (feeling : String) : Option ℕ :=
  if feeling = "Great" then some 5
  else if feeling = "Good" then some 4
  else if feeling = "Okay" then some 3
  else if feeling = "Tired" then some 2
  else if feeling = "Exhausted" then some 1
  else none

def RUNNING_TYPES : List String := ["Running"]

def GYM_TYPES : List String := ["Gym-Strength", "Gym-Crossfit"]

def TOUGH_FEELINGS : List String := ["Tired", "Exhausted"]

/-- Python truthiness of an optional string (`if feeling:`). -/
def truthyStr (o : Option String) : Option String :=
  match o with
  | some s => if s = "" then none else some s
  | none => none

/-- `value in CATEGORY` for an optional `training_type` (`None in {...}` is
false). -/
def typeIn (tt : Option String) (cat : List String) : Bool :=
  match tt with
  | some ty => decide (ty ∈ cat)
  | none => false

/-! ## Weekly calculations (pure) -/

/-- `calculate_training_week(records, label)`. -/
def calculate_training_week (records : List TrainingRecord) (label : String) :
    TrainingWeek :=
  let run_distances :=
    (records.filter (fun r => decide ((r.training_type.getD "") ∈ RUNNING_TYPES))).map
      (fun r => r.distance_km.getD 0)
  let gym_volumes :=
    (records.filter (fun r => decide ((r.training_type.getD "") ∈ GYM_TYPES))).map
      (fun r => r.volume_kg.getD 0)
  let feeling_scores := records.filterMap (fun r => (truthyStr r.feeling).bind FEELING_MAP)
  let gym_volume := roundTo 1 gym_volumes.sum
  { label := label
    sessions := records.length
    active_days := ((records.filterMap (fun r => r.date)).dedup).length
    running_km := roundTo 1 run_distances.sum
    longest_run_km :=
      match run_distances.max? with
      | some mx => roundTo 1 mx
      | none => 0
    running_count := run_distances.length
    gym_sessions := gym_volumes.length
    gym_volume := gym_volume
    gym_volume_per_session :=
      if 0 < gym_volumes.length then roundTo 1 (gym_volume / gym_volumes.length) else 0
    feeling_avg := safe_avg (feeling_scores.map (fun (s : ℕ) => (s : ℚ)))
    feeling_pct :=
      if feeling_scores = [] then 0
      else roundTo 0 ((feeling_scores.countP (fun s => decide (4 ≤ s)) : ℚ) /
        feeling_scores.length * 100)
    tough_sessions :=
      records.countP (fun r => decide ((truthyStr r.feeling).getD "" ∈ TOUGH_FEELINGS))
    total_duration_min := (records.map (fun r => truncQ (r.duration_min.getD 0))).sum }

/-- `calculate_running_period(records, label)`. -/
def calculate_running_period (records : List TrainingRecord) (label : String) :
    RunningPeriod :=
  let runs := records.filter (fun r => typeIn r.training_type RUNNING_TYPES)
  if runs = [] then { label := label }
  else
    let total_km := roundTo 1 ((runs.map (fun r => r.distance_km.getD 0)).sum)
    let total_duration := (runs.map (fun r => truncQ (r.duration_min.getD 0))).sum
    let rss_vals := runs.filterMap (fun r => r.rss)
    let total_rss := roundTo 1 rss_vals.sum
    let avg_power_w := safe_avg (runs.filterMap (fun r => r.power_w))
    let avg_hr := safe_avg (runs.filterMap (fun r => r.avg_hr))
    { label := label
      run_count := runs.length
      total_km := total_km
      total_duration_min := total_duration
      avg_power_w := avg_power_w
      total_rss := total_rss
      avg_rss_per_run := if 0 < runs.length then roundTo 1 (total_rss / runs.length) else 0
      avg_critical_power_w := safe_avg (runs.filterMap (fun r => r.critical_power_w))
      avg_cadence_spm := safe_avg (runs.filterMap (fun r => r.cadence_spm))
      avg_stride_length_m := safe_avg (runs.filterMap (fun r => r.stride_length_m))
      avg_ground_contact_ms := safe_avg (runs.filterMap (fun r => r.ground_contact_ms))
      avg_vertical_oscillation_cm :=
        safe_avg (runs.filterMap (fun r => r.vertical_oscillation_cm))
      avg_leg_spring_stiffness :=
        safe_avg (runs.filterMap (fun r => r.leg_spring_stiffness))
      avg_rpe := safe_avg (runs.filterMap (fun r => r.rpe))
      avg_hr := avg_hr
      power_to_hr_ratio :=
        if 0 < avg_hr ∧ 0 < avg_power_w then roundTo 2 (avg_power_w / avg_hr) else 0
      avg_pace_min_per_km :=
        if 0 < total_km then roundTo 2 ((total_duration : ℚ) / total_km) else 0 }

/-! ## Training load & ACWR (pure) -/

/-- `calculate_training_load(running_periods)` (most recent first). -/
def calculate_training_load (running_periods : List RunningPeriod) : TrainingLoad :=
  match running_periods with
  | [] => {}
  | rp0 :: rest =>
    let acute_load := rp0.total_rss
    let chronic_periods := rest.take 3
    let chronic_load :=
      if chronic_periods ≠ [] then
        roundTo 1 ((chronic_periods.map (fun rp => rp.total_rss)).sum /
          chronic_periods.length)
      else acute_load
    let acwr := if 0 < chronic_load then roundTo 2 (acute_load / chronic_load) else 0
    let load_status :=
      if acwr < (0.8 : ℚ) then "detraining"
      else if acwr ≤ (1.3 : ℚ) then "optimal"
      else if acwr ≤ (1.5 : ℚ) then "caution"
      else "danger"
    { label := "ACWR " ++ toString acwr ++ " (" ++ load_status ++ ")"
      weekly_rss := acute_load
      acute_load := acute_load
      chronic_load := chronic_load
      acwr := acwr
      load_status := load_status }

/-- `detect_overreaching(load, health_weeks)` (most recent first). -/
def detect_overreaching (load : TrainingLoad) (health_weeks : List HealthWeek) :
    List String :=
  if load.acwr < (1.3 : ℚ) ∨ health_weeks.length < 2 then []
  else
    match health_weeks with
    | [] => []
    | current_hw :: prior_hw =>
      let avg_battery := safe_avg (prior_hw.map (fun hw => hw.avg_body_battery))
      let w1 :=
        if 0 < avg_battery ∧ current_hw.avg_body_battery < avg_battery * (0.9 : ℚ) then
          ["Body battery declining (" ++ toString current_hw.avg_body_battery ++
            " vs avg " ++ toString avg_battery ++ ") with high training load (ACWR " ++
            toString load.acwr ++ ")"]
        else []
      let avg_sleep := safe_avg (prior_hw.map (fun hw => hw.avg_sleep_hours))
      let w2 :=
        if 0 < avg_sleep ∧ current_hw.avg_sleep_hours < avg_sleep * (0.9 : ℚ) then
          ["Sleep declining (" ++ toString current_hw.avg_sleep_hours ++ "h vs avg " ++
            toString avg_sleep ++ "h) with high training load"]
        else []
      let avg_hr := safe_avg (prior_hw.map (fun hw => hw.avg_resting_hr))
      let w3 :=
        if 0 < avg_hr ∧ avg_hr * (1.1 : ℚ) < current_hw.avg_resting_hr then
          ["Resting HR elevated (" ++ toString current_hw.avg_resting_hr ++ " vs avg " ++
            toString avg_hr ++ ") with high training load"]
        else []
      w1 ++ w2 ++ w3

/-- `trend_direction(current, previous_avg)`. -/
def trend_direction (current previous_avg : ℚ) : String :=
  if previous_avg = 0 then (if current = 0 then "stable" else "up")
  else
    let pct_change := (current - previous_avg) / |previous_avg|
    if pct_change > (0.05 : ℚ) then "up"
    else if pct_change < -(0.05 : ℚ) then "down"
    else "stable"

/-! ## Rolling ACWR (generate_charts_data.py) -/

/-- `%04d`-padded year. -/
def pad4 (n : ℤ) : String :=
  if 0 ≤ n ∧ n < 10 then "000" ++ toString n
  else if 0 ≤ n ∧ n < 100 then "00" ++ toString n
  else if 0 ≤ n ∧ n < 1000 then "0" ++ toString n
  else toString n

/-- `date.isoformat()`. -/
def isoformat (t : ℤ) : String :=
  pad4 (yearOf t) ++ "-" ++ pad2 (monthOf t) ++ "-" ++ pad2 (dayOf t)

/-- One record of the `compute_rolling_acwr` result. -/
structure LoadRow where
  week_start : String := ""
  label : String := ""
  weekly_rss : ℚ := 0
  acute_load : ℚ := 0
  chronic_load : ℚ := 0
  acwr : ℚ := 0
  load_status : String := ""
deriving Repr, DecidableEq, Inhabited

/-- `compute_rolling_acwr(running_periods, week_starts)`; the inputs are
chronologically ordered (oldest first) and of equal length. -/
def compute_rolling_acwr (running_periods : List RunningPeriod)
    (week_starts : List ℤ) : List LoadRow :=
  (List.range running_periods.length).map (fun (i : ℕ) =>
    let rp := running_periods.getD i {}
    let window := ((running_periods.take (i + 1)).drop (i - 3)).reverse
    let load := calculate_training_load window
    { week_start := isoformat (week_starts.getD i 0)
      label := rp.label
      weekly_rss := rp.total_rss
      acute_load := load.acute_load
      chronic_load := load.chronic_load
      acwr := load.acwr
      load_status := load.load_status })

/-! ## Claims about the training-load analyzer -/

/-- The load-zone classification exactly as the spec words it:
`acwr < 0.8 → detraining`, `0.8 ≤ acwr ≤ 1.3 → optimal`,
`1.3 < acwr ≤ 1.5 → caution`, `acwr > 1.5 → danger`. -/
def zoneOf (acwr : ℚ) : String :=
  if acwr < (0.8 : ℚ) then "detraining"
  else if acwr ≤ (1.3 : ℚ) then "optimal"
  else if acwr ≤ (1.5 : ℚ) then "caution"
  else "danger"

/-- Claim C1, counterexample to the claim as stated: on the empty list the
claimed threshold table would give `load_status = "detraining"` (acwr is `0`,
below `0.8`), but `calculate_training_load` returns the empty string. -/
theorem claim_C1_training_load_cex :
    (calculate_training_load []).acwr < (0.8 : ℚ) ∧
    (calculate_training_load []).load_status ≠ "detraining" ∧
    (calculate_training_load []).load_status = "" := by
  refine ⟨by norm_num [calculate_training_load], by decide, rfl⟩

/-- Claim C1 (amended: the threshold table for `load_status` applies to
non-empty input only; the empty list yields `load_status = ""`):
`calculate_training_load` sets `acute_load` to the `total_rss` of index 0
(0 for the empty list); `chronic_load` to the mean of the `total_rss` of
indices 1..3 rounded to 1 decimal when at least one prior period exists and
to `acute_load` otherwise; `acwr` to `acute_load / chronic_load` rounded to
2 decimals when `chronic_load > 0` and to 0 otherwise; and, on non-empty
input, `load_status` by the spec's threshold table.  A single period with
`total_rss = 100` yields `acwr = 1` and `"optimal"`; four periods with
`total_rss` `[200, 80, 80, 80]` (current first) yield acute 200, chronic 80,
`acwr = 2.5` and `"danger"`. -/
theorem claim_C1_training_load :
    (∀ rps : List RunningPeriod,
      (calculate_training_load rps).acute_load =
        (rps.head?.map (fun rp => rp.total_rss)).getD 0) ∧
    (∀ rps : List RunningPeriod,
      (calculate_training_load rps).chronic_load =
        (if 2 ≤ rps.length then
          roundTo 1 ((((rps.drop 1).take 3).map (fun rp => rp.total_rss)).sum /
            ((rps.drop 1).take 3).length)
        else (calculate_training_load rps).acute_load)) ∧
    (∀ rps : List RunningPeriod,
      (calculate_training_load rps).acwr =
        (if 0 < (calculate_training_load rps).chronic_load then
          roundTo 2 ((calculate_training_load rps).acute_load /
            (calculate_training_load rps).chronic_load)
        else 0)) ∧
    (∀ (rp : RunningPeriod) (rest : List RunningPeriod),
      (calculate_training_load (rp :: rest)).load_status =
        zoneOf ((calculate_training_load (rp :: rest)).acwr)) ∧
    (calculate_training_load [{ total_rss := 100 }]).acwr = 1 ∧
    (calculate_training_load [{ total_rss := 100 }]).load_status = "optimal" ∧
    (calculate_training_load [{ total_rss := 200 }, { total_rss := 80 },
        { total_rss := 80 }, { total_rss := 80 }]).acute_load = 200 ∧
    (calculate_training_load [{ total_rss := 200 }, { total_rss := 80 },
        { total_rss := 80 }, { total_rss := 80 }]).chronic_load = 80 ∧
    (calculate_training_load [{ total_rss := 200 }, { total_rss := 80 },
        { total_rss := 80 }, { total_rss := 80 }]).acwr = 5 / 2 ∧
    (calculate_training_load [{ total_rss := 200 }, { total_rss := 80 },
        { total_rss := 80 }, { total_rss := 80 }]).load_status = "danger" := by
  refine ⟨?_, ?_, ?_, ?_,
    by norm_num [calculate_training_load, roundTo, round_eq],
    by norm_num [calculate_training_load, roundTo, round_eq],
    rfl,
    by norm_num [calculate_training_load, roundTo, round_eq, List.cons_ne_nil],
    by norm_num [calculate_training_load, roundTo, round_eq, List.cons_ne_nil],
    by norm_num [calculate_training_load, roundTo, round_eq, List.cons_ne_nil]⟩
  · intro rps
    cases rps with
    | nil => rfl
    | cons a l => rfl
  · intro rps
    cases rps with
    | nil => rfl
    | cons a l =>
      cases l with
      | nil => rfl
      | cons b l2 => simp [calculate_training_load]
  · intro rps
    cases rps with
    | nil => rfl
    | cons a l => rfl
  · intro rp rest
    rfl

/-- Claim C9: `calculate_training_load` on the empty list returns the
all-zero `TrainingLoad` with empty `load_status` and `label`; every
non-empty input produces one of the four zone names, so the empty input is
the only source of a `load_status` outside the four zones. -/
theorem claim_C9_empty_training_load :
    (calculate_training_load []).acute_load = 0 ∧
    (calculate_training_load []).chronic_load = 0 ∧
    (calculate_training_load []).acwr = 0 ∧
    (calculate_training_load []).weekly_rss = 0 ∧
    (calculate_training_load []).load_status = "" ∧
    (calculate_training_load []).label = "" ∧
    (∀ (rp : RunningPeriod) (rest : List RunningPeriod),
      (calculate_training_load (rp :: rest)).load_status ∈
        ["detraining", "optimal", "caution", "danger"]) := by
  refine ⟨rfl, rfl, rfl, rfl, rfl, rfl, ?_⟩
  intro rp rest
  show zoneOf ((calculate_training_load (rp :: rest)).acwr) ∈ _
  simp only [zoneOf]
  split_ifs <;> decide

/-! ## Claims about the trend classifier -/

/-- Claim C4: `trend_direction(current, prior)` returns `"up"` when
`prior = 0 ∧ current ≠ 0`, `"stable"` when both are `0`; for `prior ≠ 0`
it returns `"up"` iff the signed relative change exceeds `0.05`, `"down"`
iff it is below `-0.05`, and `"stable"` otherwise (the threshold is
exclusive: a change of exactly ±5% is `"stable"`), together with the
spec's sample values. -/
theorem claim_C4_trend_direction :
    (∀ current prior : ℚ, prior = 0 → current ≠ 0 →
      trend_direction current prior = "up") ∧
    (∀ current prior : ℚ, prior = 0 → current = 0 →
      trend_direction current prior = "stable") ∧
    (∀ current prior : ℚ, prior ≠ 0 →
      ((trend_direction current prior = "up" ↔
          (0.05 : ℚ) < (current - prior) / |prior|) ∧
        (trend_direction current prior = "down" ↔
          (current - prior) / |prior| < -(0.05 : ℚ)) ∧
        (trend_direction current prior = "stable" ↔
          (-(0.05 : ℚ) ≤ (current - prior) / |prior| ∧
            (current - prior) / |prior| ≤ (0.05 : ℚ))))) ∧
    trend_direction 105.1 100 = "up" ∧
    trend_direction 94.9 100 = "down" ∧
    trend_direction 102 100 = "stable" ∧
    trend_direction 5 0 = "up" ∧
    trend_direction 0 0 = "stable" ∧
    trend_direction 105 100 = "stable" ∧
    trend_direction 95 100 = "stable" := by
  refine ⟨?_, ?_, ?_, by norm_num [trend_direction], by norm_num [trend_direction],
    by norm_num [trend_direction], by norm_num [trend_direction],
    by norm_num [trend_direction], by norm_num [trend_direction],
    by norm_num [trend_direction]⟩
  · intro c p h0 hne
    simp [trend_direction, h0, hne]
  · intro c p h0 he
    simp [trend_direction, h0, he]
  · intro c p hp
    simp only [trend_direction, if_neg hp]
    split_ifs with h1 h2
    · refine ⟨⟨fun _ => h1, fun _ => rfl⟩, ⟨fun h => absurd h (by decide), fun h => ?_⟩,
        ⟨fun h => absurd h (by decide), fun h => ?_⟩⟩
      · linarith
      · linarith [h.2]
    · refine ⟨⟨fun h => absurd h (by decide), fun h => absurd h h1⟩,
        ⟨fun _ => h2, fun _ => rfl⟩,
        ⟨fun h => absurd h (by decide), fun h => ?_⟩⟩
      linarith [h.1]
    · refine ⟨⟨fun h => absurd h (by decide), fun h => absurd h h1⟩,
        ⟨fun h => absurd h (by decide), fun h => absurd h h2⟩,
        ⟨fun _ => ⟨by linarith, by linarith⟩, fun _ => rfl⟩⟩

/-- Witness for C4 at a concrete input. -/
theorem claim_C4_trend_direction_witness : trend_direction 5 0 = "up" :=
  claim_C4_trend_direction.1 5 0 rfl (by norm_num)
/-- Claim C5, counterexample to the claim as stated: the code compares the
current `avg_body_battery` against `_safe_avg` of the prior values, i.e. the
mean ROUNDED to 1 decimal, not the exact mean.  With one prior week at
`7.04`, the exact mean is `7.04 > 0` and the current value `6.31` is below
`0.9 * 7.04 = 6.336`, so the claim predicts a warning; but the rounded mean
is `7.0`, `6.31 < 6.3` fails, and `detect_overreaching` returns `[]`. -/
theorem claim_C5_overreaching_cex :
    ([(7.04 : ℚ)].sum / ([(7.04 : ℚ)].length : ℚ) = 7.04) ∧
    (0 : ℚ) < 7.04 ∧
    (6.31 : ℚ) < (0.9 : ℚ) * 7.04 ∧
    ¬ ((2 : ℚ) < (1.3 : ℚ)) ∧
    detect_overreaching { acwr := 2 }
      [{ avg_body_battery := 6.31 }, { avg_body_battery := 7.04 }] = [] := by
  refine ⟨by norm_num, by norm_num, by norm_num, by norm_num, ?_⟩
  norm_num [detect_overreaching, safe_avg, roundTo, round_eq]

/-- Claim C5 (amended: each comparison is against the prior values' mean
ROUNDED to one decimal, `_safe_avg`, not the exact mean):
`detect_overreaching` returns `[]` whenever `acwr < 1.3` or fewer than two
health aggregates are supplied; otherwise it emits between 0 and 3 warnings
independently, one per comparison whose rounded prior mean is positive and
whose current value crosses the `0.9×`/`0.9×`/`1.1×` threshold; a
comparison with rounded prior mean `0` emits nothing. -/
theorem claim_C5_overreaching :
    (∀ (load : TrainingLoad) (health_weeks : List HealthWeek),
      load.acwr < (1.3 : ℚ) ∨ health_weeks.length < 2 →
      detect_overreaching load health_weeks = []) ∧
    (∀ (load : TrainingLoad) (cur : HealthWeek) (prior : List HealthWeek),
      ¬ load.acwr < (1.3 : ℚ) → 2 ≤ (cur :: prior).length →
      (detect_overreaching load (cur :: prior)).length =
        ((if 0 < safe_avg (prior.map (fun hw => hw.avg_body_battery)) ∧
              cur.avg_body_battery <
                safe_avg (prior.map (fun hw => hw.avg_body_battery)) * (0.9 : ℚ)
          then 1 else 0) +
          (if 0 < safe_avg (prior.map (fun hw => hw.avg_sleep_hours)) ∧
              cur.avg_sleep_hours <
                safe_avg (prior.map (fun hw => hw.avg_sleep_hours)) * (0.9 : ℚ)
          then 1 else 0) +
          (if 0 < safe_avg (prior.map (fun hw => hw.avg_resting_hr)) ∧
              safe_avg (prior.map (fun hw => hw.avg_resting_hr)) * (1.1 : ℚ) <
                cur.avg_resting_hr
          then 1 else 0)) ∧
      (detect_overreaching load (cur :: prior)).length ≤ 3) := by
  constructor
  · intro load hws h
    cases hws <;> (simp only [detect_overreaching]; rw [if_pos h])
  · intro load cur prior h1 h2
    have hc : ¬ (load.acwr < (1.3 : ℚ) ∨ (cur :: prior).length < 2) := by
      rintro (h | h)
      · exact h1 h
      · omega
    constructor
    · simp only [detect_overreaching, if_neg hc]
      split_ifs <;> simp
    · simp only [detect_overreaching, if_neg hc]
      split_ifs <;> simp

/-- Witness for C5: at `acwr = 1.1` no warnings fire regardless of health
deltas, and at `acwr = 2` with prior battery `10` and current `5` exactly
one warning fires. -/
theorem claim_C5_overreaching_witness :
    detect_overreaching { acwr := 1.1 } [{}, {}] = [] ∧
    (detect_overreaching { acwr := 2 }
      [{ avg_body_battery := 5 }, { avg_body_battery := 10 }]).length = 1 := by
  constructor
  · exact claim_C5_overreaching.1 { acwr := 1.1 } [{}, {}] (Or.inl (by norm_num))
  · have h := (claim_C5_overreaching.2 { acwr := 2 } { avg_body_battery := 5 }
      [{ avg_body_battery := 10 }] (by norm_num) (by norm_num)).1
    rw [h]
    norm_num [safe_avg, roundTo, round_eq]

/-- Claim C6: `calculate_running_period` is total and every division is
guarded: a bucket with no Running records yields the all-default aggregate
(only the label set, `run_count = 0`); `run_count` always equals the number
of Running records; `power_to_hr_ratio`, `avg_pace_min_per_km` and
`avg_rss_per_run` equal the corresponding quotient (rounded) exactly when
their guard (`avg_hr > 0 ∧ avg_power_w > 0`, `total_km > 0`,
`run_count > 0`) holds and `0` otherwise. -/
theorem claim_C6_running_period_guards :
    (∀ (records : List TrainingRecord) (label : String),
      records.filter (fun r => typeIn r.training_type RUNNING_TYPES) = [] →
      calculate_running_period records label = { label := label }) ∧
    (∀ (records : List TrainingRecord) (label : String),
      (calculate_running_period records label).run_count =
        (records.filter (fun r => typeIn r.training_type RUNNING_TYPES)).length) ∧
    (∀ (records : List TrainingRecord) (label : String),
      (calculate_running_period records label).power_to_hr_ratio =
        (if 0 < (calculate_running_period records label).avg_hr ∧
            0 < (calculate_running_period records label).avg_power_w then
          roundTo 2 ((calculate_running_period records label).avg_power_w /
            (calculate_running_period records label).avg_hr)
        else 0)) ∧
    (∀ (records : List TrainingRecord) (label : String),
      (calculate_running_period records label).avg_pace_min_per_km =
        (if 0 < (calculate_running_period records label).total_km then
          roundTo 2 (((calculate_running_period records label).total_duration_min : ℚ) /
            (calculate_running_period records label).total_km)
        else 0)) ∧
    (∀ (records : List TrainingRecord) (label : String),
      (calculate_running_period records label).avg_rss_per_run =
        (if 0 < (calculate_running_period records label).run_count then
          roundTo 1 ((calculate_running_period records label).total_rss /
            ((calculate_running_period records label).run_count : ℚ))
        else 0)) := by
  refine ⟨fun records label h => ?_, fun records label => ?_, fun records label => ?_,
    fun records label => ?_, fun records label => ?_⟩
  · simp only [calculate_running_period, if_pos h]
  · by_cases h : records.filter (fun r => typeIn r.training_type RUNNING_TYPES) = []
    · simp only [calculate_running_period, if_pos h, h]
      rfl
    · simp only [calculate_running_period, if_neg h]
  · by_cases h : records.filter (fun r => typeIn r.training_type RUNNING_TYPES) = []
    · simp only [calculate_running_period, if_pos h]
      norm_num
    · simp only [calculate_running_period, if_neg h]
  · by_cases h : records.filter (fun r => typeIn r.training_type RUNNING_TYPES) = []
    · simp only [calculate_running_period, if_pos h]
      norm_num
    · simp only [calculate_running_period, if_neg h]
  · by_cases h : records.filter (fun r => typeIn r.training_type RUNNING_TYPES) = []
    · simp only [calculate_running_period, if_pos h]
      norm_num
    · simp only [calculate_running_period, if_neg h]
/-- Claim C7: `calculate_training_week` computes `feeling_avg` as the mean
of the records' feelings mapped through the ordinal scale Exhausted=1 …
Great=5 rounded to 1 decimal (0 when no feelings are present),
`feeling_pct` as the rounded percentage of feeling-bearing records rated
≥ 4, and `tough_sessions` as the count of records whose feeling is
"Tired" or "Exhausted". -/
theorem claim_C7_training_week_feelings (records : List TrainingRecord) (label : String) :
    FEELING_MAP "Exhausted" = some 1 ∧ FEELING_MAP "Tired" = some 2 ∧
    FEELING_MAP "Okay" = some 3 ∧ FEELING_MAP "Good" = some 4 ∧
    FEELING_MAP "Great" = some 5 ∧
    (calculate_training_week records label).feeling_avg =
      (if records.filterMap (fun r => r.feeling.bind FEELING_MAP) = [] then 0
       else roundTo 1
         (((records.filterMap (fun r => r.feeling.bind FEELING_MAP)).map
             (fun (s : ℕ) => (s : ℚ))).sum /
           (records.filterMap (fun r => r.feeling.bind FEELING_MAP)).length)) ∧
    (calculate_training_week records label).feeling_pct =
      (if records.filterMap (fun r => r.feeling.bind FEELING_MAP) = [] then 0
       else roundTo 0
         (((records.filterMap (fun r => r.feeling.bind FEELING_MAP)).countP
             (fun s => decide (4 ≤ s)) : ℚ) /
           (records.filterMap (fun r => r.feeling.bind FEELING_MAP)).length * 100)) ∧
    (calculate_training_week records label).tough_sessions =
      records.countP (fun r => decide (r.feeling.getD "" ∈ TOUGH_FEELINGS)) := by
  have key : (fun r : TrainingRecord => (truthyStr r.feeling).bind FEELING_MAP) =
      (fun r => r.feeling.bind FEELING_MAP) := by
    funext r
    cases hf : r.feeling with
    | none => rfl
    | some s =>
      by_cases hs : s = ""
      · subst hs; rfl
      · simp [truthyStr, hs]
  have keyT : (fun r : TrainingRecord =>
      decide ((truthyStr r.feeling).getD "" ∈ TOUGH_FEELINGS)) =
      (fun r => decide (r.feeling.getD "" ∈ TOUGH_FEELINGS)) := by
    funext r
    cases hf : r.feeling with
    | none => rfl
    | some s =>
      by_cases hs : s = ""
      · subst hs; rfl
      · simp [truthyStr, hs]
  refine ⟨rfl, rfl, rfl, rfl, rfl, ?_, ?_, ?_⟩
  · simp only [calculate_training_week, key, safe_avg]
    by_cases hs : records.filterMap (fun r => r.feeling.bind FEELING_MAP) = []
    · simp [hs]
    · simp [hs, List.length_map]
  · simp only [calculate_training_week, key]
  · simp only [calculate_training_week, keyT]

/-- Claim C8: `compute_rolling_acwr` produces one row per input period, the
`i`-th carrying exactly the acute/chronic/acwr/status of
`calculate_training_load` on the reversed window of periods
`max(0, i-3) .. i`, with `weekly_rss` the `i`-th period's `total_rss` and
`week_start` the ISO form of the `i`-th start date. -/
theorem claim_C8_rolling_acwr (running_periods : List RunningPeriod)
    (week_starts : List ℤ) :
    (compute_rolling_acwr running_periods week_starts).length =
      running_periods.length ∧
    ∀ i : ℕ, i < running_periods.length →
      (compute_rolling_acwr running_periods week_starts).getD i {} =
        { week_start := isoformat (week_starts.getD i 0)
          label := (running_periods.getD i {}).label
          weekly_rss := (running_periods.getD i {}).total_rss
          acute_load := (calculate_training_load
            (((running_periods.drop (i - 3)).take (i + 1 - (i - 3))).reverse)).acute_load
          chronic_load := (calculate_training_load
            (((running_periods.drop (i - 3)).take (i + 1 - (i - 3))).reverse)).chronic_load
          acwr := (calculate_training_load
            (((running_periods.drop (i - 3)).take (i + 1 - (i - 3))).reverse)).acwr
          load_status := (calculate_training_load
            (((running_periods.drop (i - 3)).take (i + 1 - (i - 3))).reverse)).load_status } := by
  have hlen : (compute_rolling_acwr running_periods week_starts).length =
      running_periods.length := by
    simp [compute_rolling_acwr]
  constructor
  · exact hlen
  · intro i hi
    rw [List.getD_eq_getElem (compute_rolling_acwr running_periods week_starts) {} (by omega)]
    simp only [compute_rolling_acwr, List.getElem_map, List.getElem_range]
    rw [List.take_drop]
    rw [show i - 3 + (i + 1 - (i - 3)) = i + 1 from by omega]
/-! ## Bucketing records into periods (`group_by_period`) -/

/-- The value of a record's `date` field as `group_by_period` sees it:
absent (`None`), a `date` object (modelled by its ordinal), or a string to
be parsed with `date.fromisoformat`. -/
inductive DateVal where
  | null : DateVal
  | dat : ℤ → DateVal
  | str : String → DateVal
deriving Repr, DecidableEq

/-- A record as seen by `group_by_period`: the `date` field plus an opaque
payload standing for the rest of the dict (it lets two records differ). -/
structure GRecord where
  date : DateVal := DateVal.null
  payload : ℕ := 0
deriving Repr, DecidableEq

/-- Numeric value of a decimal digit character. -/
def digitVal (c : Char) : Option ℕ :=
  if c.isDigit then some (c.toNat - 48) else none

/-- `date.fromisoformat` on the canonical `YYYY-MM-DD` form (the only form
produced by Notion's date properties); `none` models raising `ValueError`. -/
def parseIso (s : String) : Option ℤ :=
  match s.toList with
  | [y1, y2, y3, y4, h1, m1, m2, h2, d1, d2] =>
    if h1 = '-' ∧ h2 = '-' then
      match digitVal y1, digitVal y2, digitVal y3, digitVal y4,
          digitVal m1, digitVal m2, digitVal d1, digitVal d2 with
      | some a, some b, some c, some d, some e, some f, some g, some h =>
        let y : ℤ := (a : ℤ) * 1000 + (b : ℤ) * 100 + (c : ℤ) * 10 + (d : ℤ)
        let mo : ℤ := (e : ℤ) * 10 + (f : ℤ)
        let da : ℤ := (g : ℤ) * 10 + (h : ℤ)
        if 1 ≤ y ∧ 1 ≤ mo ∧ mo ≤ 12 ∧ 1 ≤ da ∧ da ≤ mdays y mo then
          some (mkDate y mo da)
        else none
      | _, _, _, _, _, _, _, _ => none
    else none
  | _ => none

/-- The parsed date of a record: `none` when the field is absent (the code
`continue`s) or, notionally, when the string is malformed (the code raises
there instead; see `group_step`). -/
def dateOk (r : GRecord) : Option ℤ :=
  match r.date with
  | DateVal.null => none
  | DateVal.dat d => some d
  | DateVal.str s => parseIso s

/-- Index of the first period whose inclusive `[start, end]` range contains
`d` (the `for idx, (start, end, _label) in enumerate(periods)` search with
`break`). -/
def firstContaining : List Period → ℤ → Option ℕ
  | [], _ => none
  | p :: ps, d =>
    if p.start ≤ d ∧ d ≤ p.stop then some 0
    else (firstContaining ps d).map (fun j => j + 1)

/-- Place record `r` with parsed date `d` into the bucket of the first
containing period (`buckets[idx].append(record); break`), if any. -/
def placeRec (periods : List Period) (buckets : List (List GRecord))
    (r : GRecord) (d : ℤ) : List (List GRecord) :=
  match firstContaining periods d with
  | some idx => buckets.set idx (buckets.getD idx [] ++ [r])
  | none => buckets

/-- One `for record in records` iteration of `group_by_period`: skip a null
date, parse a string date (raising `ValueError` on a malformed one), place
the record. -/
def group_step (periods : List Period) (buckets : List (List GRecord))
    (r : GRecord) : Except String (List (List GRecord)) :=
  match r.date with
  | DateVal.null => Except.ok buckets
  | DateVal.dat d => Except.ok (placeRec periods buckets r d)
  | DateVal.str s =>
    match parseIso s with
    | some d => Except.ok (placeRec periods buckets r d)
    | none => Except.error ("Invalid isoformat string: " ++ s)

/-- `group_by_period(records, periods)` (with the default `date_key`). -/
def group_by_period (records : List GRecord) (periods : List Period) :
    Except String (List (List GRecord)) :=
  records.foldlM (fun buckets r => group_step periods buckets r)
    (periods.map (fun _ => []))

/-- Membership predicate of bucket `idx`: the record has a parseable date
and `idx` is the first period containing it. -/
def gpred (periods : List Period) (idx : ℕ) (r : GRecord) : Bool :=
  match dateOk r with
  | some d => decide (firstContaining periods d = some idx)
  | none => false

/-- A record that lands in some bucket: it has a date and some period
contains it. -/
def ghit (periods : List Period) (r : GRecord) : Bool :=
  match dateOk r with
  | some d => (firstContaining periods d).isSome
  | none => false

theorem firstContaining_lt (ps : List Period) (d : ℤ) :
    ∀ j : ℕ, firstContaining ps d = some j → j < ps.length := by
  induction ps with
  | nil => intro j h; simp [firstContaining] at h
  | cons p ps ih =>
    intro j h
    rw [firstContaining] at h
    by_cases hc : p.start ≤ d ∧ d ≤ p.stop
    · rw [if_pos hc] at h
      simp only [Option.some.injEq] at h
      simp [← h]
    · rw [if_neg hc] at h
      cases hj : firstContaining ps d with
      | none => rw [hj] at h; simp at h
      | some k =>
        rw [hj] at h
        simp only [Option.map_some', Option.some.injEq] at h
        have := ih k hj
        simp only [List.length_cons]
        omega

theorem getD_set_list (B : List (List GRecord)) (j idx : ℕ) (hidx : idx < B.length)
    (x : List GRecord) :
    (B.set j x).getD idx [] = if j = idx then x else B.getD idx [] := by
  rw [List.getD_eq_getElem (B.set j x) [] (by simpa using hidx),
    List.getElem_set, List.getD_eq_getElem B [] hidx]

theorem sum_len_set_append (B : List (List GRecord)) (j : ℕ) (x : GRecord)
    (hj : j < B.length) :
    ((B.set j (B.getD j [] ++ [x])).map List.length).sum =
      (B.map List.length).sum + 1 := by
  induction B generalizing j with
  | nil => simp at hj
  | cons b bs ih =>
    cases j with
    | zero =>
      simp only [List.getD_cons_zero, List.set_cons_zero, List.map_cons, List.sum_cons,
        List.length_append, List.length_cons, List.length_nil]
      omega
    | succ k =>
      have hk : k < bs.length := by simpa using hj
      simp only [List.getD_cons_succ, List.set_cons_succ, List.map_cons, List.sum_cons,
        ih k hk]
      omega

theorem placeRec_spec (periods : List Period) (B : List (List GRecord))
    (hB : B.length = periods.length) (r : GRecord) (d : ℤ) :
    (placeRec periods B r d).length = periods.length ∧
    (∀ idx, idx < periods.length →
      (placeRec periods B r d).getD idx [] =
        B.getD idx [] ++ (if firstContaining periods d = some idx then [r] else [])) ∧
    ((placeRec periods B r d).map List.length).sum =
      (B.map List.length).sum + (if (firstContaining periods d).isSome then 1 else 0) := by
  cases hfc : firstContaining periods d with
  | none =>
    simp only [placeRec, hfc]
    refine ⟨hB, ?_, by simp⟩
    intro idx hidx
    simp
  | some j =>
    have hj : j < periods.length := firstContaining_lt periods d j hfc
    have hjB : j < B.length := by omega
    refine ⟨?_, ?_, ?_⟩
    · simp only [placeRec, hfc, List.length_set]
      exact hB
    · intro idx hidx
      have hidxB : idx < B.length := by omega
      simp only [placeRec, hfc]
      rw [getD_set_list B j idx hidxB]
      by_cases h : j = idx
      · subst h
        simp
      · simp [h, Ne.symm h]
    · simp only [placeRec, hfc]
      rw [sum_len_set_append B j r hjB]
      simp

theorem group_fold_spec (periods : List Period) :
    ∀ (records : List GRecord) (B : List (List GRecord)),
      B.length = periods.length →
      (∀ r ∈ records, ∀ s, r.date = DateVal.str s → (parseIso s).isSome) →
      ∃ buckets,
        List.foldlM (fun buckets r => group_step periods buckets r) B records =
          Except.ok buckets ∧
        buckets.length = periods.length ∧
        (∀ idx, idx < periods.length →
          buckets.getD idx [] = B.getD idx [] ++ records.filter (gpred periods idx)) ∧
        (buckets.map List.length).sum =
          (B.map List.length).sum + records.countP (ghit periods) := by
  intro records
  induction records with
  | nil =>
    intro B hB hgood
    refine ⟨B, rfl, hB, ?_, by simp⟩
    intro idx _
    simp
  | cons r rs ih =>
    intro B hB hgood
    have hgood' : ∀ x ∈ rs, ∀ s, x.date = DateVal.str s → (parseIso s).isSome :=
      fun x hx => hgood x (List.mem_cons_of_mem r hx)
    cases hdate : r.date with
    | null =>
      obtain ⟨buckets, hfold, hlen, hchar, hsum⟩ := ih B hB hgood'
      refine ⟨buckets, ?_, hlen, ?_, ?_⟩
      · rw [List.foldlM_cons]
        have hstep : group_step periods B r = Except.ok B := by
          simp [group_step, hdate]
        rw [hstep]
        exact hfold
      · intro idx hidx
        rw [hchar idx hidx]
        have hg : gpred periods idx r = false := by simp [gpred, dateOk, hdate]
        rw [List.filter_cons, hg]
        simp
      · rw [hsum]
        have hh : ghit periods r = false := by simp [ghit, dateOk, hdate]
        rw [List.countP_cons, hh]
        simp
    | dat d =>
      have hP := placeRec_spec periods B hB r d
      obtain ⟨buckets, hfold, hlen, hchar, hsum⟩ := ih (placeRec periods B r d) hP.1 hgood'
      have hdo : dateOk r = some d := by simp [dateOk, hdate]
      refine ⟨buckets, ?_, hlen, ?_, ?_⟩
      · rw [List.foldlM_cons]
        have hstep : group_step periods B r = Except.ok (placeRec periods B r d) := by
          simp [group_step, hdate]
        rw [hstep]
        exact hfold
      · intro idx hidx
        rw [hchar idx hidx, hP.2.1 idx hidx]
        have hg : gpred periods idx r = decide (firstContaining periods d = some idx) := by
          simp [gpred, hdo]
        rw [List.filter_cons, hg]
        by_cases hfc : firstContaining periods d = some idx
        · simp [hfc, List.append_assoc]
        · simp [hfc]
      · rw [hsum, hP.2.2]
        have hh : ghit periods r = (firstContaining periods d).isSome := by
          simp [ghit, hdo]
        rw [List.countP_cons, hh]
        cases (firstContaining periods d).isSome <;> simp <;> omega
    | str s =>
      have hps : (parseIso s).isSome := hgood r (List.mem_cons_self r rs) s hdate
      obtain ⟨d, hd⟩ := Option.isSome_iff_exists.mp hps
      have hP := placeRec_spec periods B hB r d
      obtain ⟨buckets, hfold, hlen, hchar, hsum⟩ := ih (placeRec periods B r d) hP.1 hgood'
      have hdo : dateOk r = some d := by simp [dateOk, hdate, hd]
      refine ⟨buckets, ?_, hlen, ?_, ?_⟩
      · rw [List.foldlM_cons]
        have hstep : group_step periods B r = Except.ok (placeRec periods B r d) := by
          simp [group_step, hdate, hd]
        rw [hstep]
        exact hfold
      · intro idx hidx
        rw [hchar idx hidx, hP.2.1 idx hidx]
        have hg : gpred periods idx r = decide (firstContaining periods d = some idx) := by
          simp [gpred, hdo]
        rw [List.filter_cons, hg]
        by_cases hfc : firstContaining periods d = some idx
        · simp [hfc, List.append_assoc]
        · simp [hfc]
      · rw [hsum, hP.2.2]
        have hh : ghit periods r = (firstContaining periods d).isSome := by
          simp [ghit, hdo]
        rw [List.countP_cons, hh]
        cases (firstContaining periods d).isSome <;> simp <;> omega

/-- Claim C3: `group_by_period` (on inputs whose string dates are
well-formed, where the Python code does not raise) returns exactly one
bucket per period; bucket `idx` is exactly the subsequence of records whose
date exists and whose first containing period is `idx` (so null-dated
records are skipped, each dated record goes to the first containing period
and to no other bucket, and the original relative order is preserved); the
total bucket size is at most the number of records with non-null dates,
with equality when every such date lies in some period's range. -/
theorem claim_C3_group_by_period (records : List GRecord) (periods : List Period)
    (hgood : ∀ r ∈ records, ∀ s, r.date = DateVal.str s → (parseIso s).isSome) :
    ∃ buckets,
      group_by_period records periods = Except.ok buckets ∧
      buckets.length = periods.length ∧
      (∀ idx, idx < periods.length →
        buckets.getD idx [] = records.filter (gpred periods idx)) ∧
      (buckets.map List.length).sum ≤
        (records.filter (fun r => (dateOk r).isSome)).length ∧
      ((∀ r ∈ records, ∀ d, dateOk r = some d → (firstContaining periods d).isSome) →
        (buckets.map List.length).sum =
          (records.filter (fun r => (dateOk r).isSome)).length) := by
  have hB : (periods.map (fun _ => ([] : List GRecord))).length = periods.length := by
    simp
  obtain ⟨buckets, hfold, hlen, hchar, hsum⟩ :=
    group_fold_spec periods records (periods.map (fun _ => [])) hB hgood
  have hz : ((periods.map (fun _ => ([] : List GRecord))).map List.length).sum = 0 := by
    rw [List.map_map]
    apply List.sum_eq_zero
    intro x hx
    simp only [List.mem_map, Function.comp] at hx
    obtain ⟨p, _, hp⟩ := hx
    simp [← hp]
  refine ⟨buckets, hfold, hlen, ?_, ?_, ?_⟩
  · intro idx hidx
    rw [hchar idx hidx]
    have hnil : (periods.map (fun _ => ([] : List GRecord))).getD idx [] = [] := by
      rw [List.getD_eq_getElem _ [] (by simpa using hidx)]
      simp
    rw [hnil, List.nil_append]
  · rw [hsum, hz, Nat.zero_add, ← List.countP_eq_length_filter]
    apply List.countP_mono_left
    intro r _ h
    cases hdo : dateOk r with
    | none => rw [ghit, hdo] at h; simp at h
    | some d => simp [hdo]
  · intro hall
    rw [hsum, hz, Nat.zero_add, ← List.countP_eq_length_filter]
    apply List.countP_congr
    intro r hr
    cases hdo : dateOk r with
    | none => rw [ghit, hdo]; simp [hdo]
    | some d =>
      rw [ghit, hdo]
      simp only [hdo, Option.isSome_some, iff_true]
      exact hall r hr d hdo

/-- Witness for C3: three records (a date object in range, a null date, a
well-formed ISO string in range) bucketed into a single period. -/
theorem claim_C3_group_by_period_witness :
    ∃ buckets,
      group_by_period
        [{ date := DateVal.dat 700000, payload := 1 },
          { date := DateVal.null, payload := 2 },
          { date := DateVal.str "2024-03-01", payload := 3 }]
        [{ start := 1, stop := 10 ^ 6 }] = Except.ok buckets ∧
      buckets.length = ([{ start := 1, stop := 10 ^ 6 }] : List Period).length ∧
      (∀ idx, idx < ([{ start := 1, stop := 10 ^ 6 }] : List Period).length →
        buckets.getD idx [] =
          [{ date := DateVal.dat 700000, payload := 1 },
            { date := DateVal.null, payload := 2 },
            { date := DateVal.str "2024-03-01", payload := 3 }].filter
            (gpred [{ start := 1, stop := 10 ^ 6 }] idx)) ∧
      (buckets.map List.length).sum ≤
        ([{ date := DateVal.dat 700000, payload := 1 },
          { date := DateVal.null, payload := 2 },
          { date := DateVal.str "2024-03-01", payload := 3 }].filter
          (fun r => (dateOk r).isSome)).length ∧
      ((∀ r ∈ [{ date := DateVal.dat 700000, payload := 1 },
          { date := DateVal.null, payload := 2 },
          { date := DateVal.str "2024-03-01", payload := 3 }], ∀ d : ℤ,
          dateOk r = some d →
          (firstContaining [{ start := 1, stop := 10 ^ 6 }] d).isSome) →
        (buckets.map List.length).sum =
          ([{ date := DateVal.dat 700000, payload := 1 },
            { date := DateVal.null, payload := 2 },
            { date := DateVal.str "2024-03-01", payload := 3 }].filter
            (fun r => (dateOk r).isSome)).length) := by
  apply claim_C3_group_by_period
  intro r hr s hs
  simp only [List.mem_cons, List.not_mem_nil, or_false] at hr
  rcases hr with rfl | rfl | rfl
  · simp at hs
  · simp at hs
  · have : s = "2024-03-01" := by
      have := congrArg (fun v => match v with | DateVal.str t => t | _ => "") hs
      exact this.symm
    rw [this]
    decide
/-- Witness for C6: the empty bucket has no Running records and yields the
all-default aggregate. -/
theorem claim_C6_running_period_guards_witness :
    calculate_running_period [] "wk" = { label := "wk" } :=
  claim_C6_running_period_guards.1 [] "wk" rfl

/-- Witness for C8 at a single period. -/
theorem claim_C8_rolling_acwr_witness :
    (compute_rolling_acwr [{ total_rss := 100 }] [739000]).getD 0 {} =
      { week_start := isoformat ([(739000 : ℤ)].getD 0 0)
        label := (([{ total_rss := 100 }] : List RunningPeriod).getD 0 {}).label
        weekly_rss := (([{ total_rss := 100 }] : List RunningPeriod).getD 0 {}).total_rss
        acute_load := (calculate_training_load
          (((([{ total_rss := 100 }] : List RunningPeriod).drop (0 - 3)).take
            (0 + 1 - (0 - 3))).reverse)).acute_load
        chronic_load := (calculate_training_load
          (((([{ total_rss := 100 }] : List RunningPeriod).drop (0 - 3)).take
            (0 + 1 - (0 - 3))).reverse)).chronic_load
        acwr := (calculate_training_load
          (((([{ total_rss := 100 }] : List RunningPeriod).drop (0 - 3)).take
            (0 + 1 - (0 - 3))).reverse)).acwr
        load_status := (calculate_training_load
          (((([{ total_rss := 100 }] : List RunningPeriod).drop (0 - 3)).take
            (0 + 1 - (0 - 3))).reverse)).load_status } :=
  (claim_C8_rolling_acwr [{ total_rss := 100 }] [739000]).2 0 (by simp)
